import Mathlib

/-!
Verification of the conversation-memory, dedup/throttle and scheduling core of
the `create-x-generations` agent, as a shallow embedding in Lean.

Python values stored in the JSON-backed dictionaries are modelled by `PyVal`;
Python dicts are association lists preserving insertion order (as CPython
dicts do); uncaught Python exceptions are modelled by an `Option PyErr`
component threaded next to the mutated state, so that the partial mutations
performed before an exception remain visible, exactly as they do through
Python object aliasing.  Wall-clock readings (`datetime.now().isoformat()`,
`time.time()`) are passed in as explicit parameters.
-/

namespace CreateX

/-- A Python/JSON value as stored in the persisted dictionaries.  Floats do
not occur in any of the modelled code paths. -/
inductive PyVal where
  | none_ : PyVal
  | bool : Bool → PyVal
  | int : Int → PyVal
  | str : String → PyVal
  | list : List PyVal → PyVal
  | dict : List (String × PyVal) → PyVal
deriving Repr

/-- An uncaught Python exception relevant to the modelled code. -/
inductive PyErr where
  | keyError (key : String) : PyErr
  | attributeError (attr : String) : PyErr
  | typeError : PyErr
deriving Repr, DecidableEq

/-- `d[k] = v` on a Python dict: replace in place if the key exists, else
append, preserving insertion order. -/
def assocSet {α : Type} : List (String × α) → String → α → List (String × α)
  | [], k, v => [(k, v)]
  | (k', v') :: rest, k, v =>
      if k' = k then (k, v) :: rest else (k', v') :: assocSet rest k v

/-- Python truthiness: `not x` is true exactly on these values. -/
def pyFalsy : PyVal → Bool
  | .none_ => true
  | .bool b => !b
  | .int n => n == 0
  | .str s => s.isEmpty
  | .list xs => xs.isEmpty
  | .dict kvs => kvs.isEmpty

/-- Python truthiness of a value. -/
def pyTruthy (v : PyVal) : Bool := !pyFalsy v

/-- Python `str(v)` for the values reaching the sort key of
`get_recent_context`.  Scalars follow CPython exactly; for containers a
canonical rendering is used (no claim exercises `str()` of a container). -/
def pyStr (v : PyVal) : String :=
  match v with
  | .none_ => "None"
  | .bool true => "True"
  | .bool false => "False"
  | .int n => toString n
  | .str s => s
  | v => reprStr v

/-- Python list slice `xs[start:]`, handling negative indices as CPython
does (in particular `xs[-0:]` is the whole list). -/
def pySliceFrom {α : Type} (start : Int) (xs : List α) : List α :=
  let n : Int := xs.length
  let s := if start < 0 then max (n + start) 0 else min start n
  xs.drop s.toNat

/-- `set.add`: membership-based insertion (CPython sets hash by value). -/
def setAdd (x : String) (l : List String) : List String :=
  if x ∈ l then l else l ++ [x]

/-- The state of a `ConversationMemory` instance together with the files it
reads and writes.  `memory` is `self.memory` (handle → record), `tweets` is
`self.tweets`, `replied_mentions` is the `self.replied_mentions` set,
`conv_files` holds the contents of `data/conversations/<handle>.json`
keyed by handle, and `replied_file` the JSON array currently stored in
`data/replied_mentions.json` (`none` = missing or unreadable file). -/
structure MemState where
  memory : List (String × PyVal)
  tweets : List PyVal
  replied_mentions : List String
  conv_files : List (String × PyVal)
  replied_file : Option (List String)
deriving Repr

/-- The record literal created by `get_conversation` for an unseen handle. -/
def defaultRecord (now : String) : PyVal :=
  .dict [("dms", .list []), ("mentions", .list []),
         ("last_interaction", .none_),
         ("metadata", .dict [("first_seen", .str now),
                             ("total_interactions", .int 0)])]

/-- `get_conversation`: get or lazily create the record for a handle.
`now` is the `datetime.now().isoformat()` reading used for `first_seen`. -/
def get_conversation (now : String) (handle : String) (s : MemState) :
    MemState × PyVal :=
  match s.memory.lookup handle with
  | some v => (s, v)
  | none =>
      let r := defaultRecord now
      ({ s with memory := assocSet s.memory handle r }, r)

/-- `save_conversation`: write the handle's in-memory record to its own file
(no-op when the handle is absent; `json.dump` of a `PyVal` succeeds). -/
def save_conversation (handle : String) (s : MemState) : MemState :=
  match s.memory.lookup handle with
  | some v => { s with conv_files := assocSet s.conv_files handle v }
  | none => s

/-- `add_dm`: append the message to `conv["dms"]`, stamp
`conv["last_interaction"]`, increment `conv["metadata"]["total_interactions"]`
and save.  The function has no exception handler, so the `Option PyErr`
component reports an uncaught exception; mutations made through the aliased
record before the raising statement stay in `memory`, as in Python. -/
def add_dm (now : String) (handle : String) (message : List (String × PyVal))
    (s : MemState) : MemState × Option PyErr :=
  let p := get_conversation now handle s
  let s := p.1
  match p.2 with
  | .dict conv =>
    let msg := assocSet message "type" (.str "dm")
    match conv.lookup "dms" with
    | some (.list dms) =>
      let conv := assocSet conv "dms" (.list (dms ++ [.dict msg]))
      let conv := assocSet conv "last_interaction" (.str now)
      let s := { s with memory := assocSet s.memory handle (.dict conv) }
      match conv.lookup "metadata" with
      | some (.dict md) =>
        match md.lookup "total_interactions" with
        | some (.int n) =>
          let conv := assocSet conv "metadata"
            (.dict (assocSet md "total_interactions" (.int (n + 1))))
          let s := { s with memory := assocSet s.memory handle (.dict conv) }
          (save_conversation handle s, none)
        | some _ => (s, some .typeError)
        | none => (s, some (.keyError "total_interactions"))
      | some _ => (s, some .typeError)
      | none => (s, some (.keyError "metadata"))
    | some _ => (s, some (.attributeError "append"))
    | none => (s, some (.keyError "dms"))
  | _ => (s, some .typeError)

/-- The local fallback record literal built by `add_mention` when
`get_conversation` returned a falsy value (note: it is a fresh local object,
never stored into `self.memory`). -/
def altMentionRecord (handle : String) : List (String × PyVal) :=
  [("handle", .str handle), ("dms", .list []), ("mentions", .list []),
   ("last_interaction", .none_), ("total_interactions", .int 0)]

/-- Body of `add_mention` up to its blanket `except` handler: append the
mention, stamp `last_interaction`, execute `conversation["total_interactions"]
+= 1` and save.  The returned `Option PyErr` is the exception (if any) that
the handler catches.  When the record obtained from `get_conversation` is
truthy, the local name aliases the stored record and every mutation is
visible in `memory`; in the (dead in practice) falsy branch the literal
replacement is local only. -/
def add_mention_body (now : String) (handle : String) (mention_data : PyVal)
    (s : MemState) : MemState × Option PyErr :=
  let p := get_conversation now handle s
  let s := p.1
  let aliased := pyTruthy p.2
  let conv0 := if pyFalsy p.2 then .dict (altMentionRecord handle) else p.2
  match conv0 with
  | .dict conv =>
    match (conv.lookup "mentions").getD (.list []) with
    | .list ms =>
      let conv := assocSet conv "mentions" (.list (ms ++ [mention_data]))
      let conv := assocSet conv "last_interaction" (.str now)
      let s := if aliased then
                 { s with memory := assocSet s.memory handle (.dict conv) }
               else s
      match conv.lookup "total_interactions" with
      | some (.int n) =>
        let conv := assocSet conv "total_interactions" (.int (n + 1))
        let s := if aliased then
                   { s with memory := assocSet s.memory handle (.dict conv) }
                 else s
        (save_conversation handle s, none)
      | some _ => (s, some .typeError)
      | none => (s, some (.keyError "total_interactions"))
    | _ => (s, some (.attributeError "append"))
  | _ => (s, some (.attributeError "get"))

/-- `add_mention`: the whole body runs inside `try ... except`, which logs
and swallows any exception, so the caller always just gets the new state. -/
def add_mention (now : String) (handle : String) (mention_data : PyVal)
    (s : MemState) : MemState :=
  (add_mention_body now handle mention_data s).1

/-- `clear_memory`: with a handle, reset that handle's record to the literal
with only the `dms` and `mentions` keys and save it; with `None`, drop the
whole in-memory map and delete every conversation file. -/
def clear_memory (handle : Option String) (s : MemState) : MemState :=
  match handle with
  | some h =>
      if (s.memory.lookup h).isSome then
        save_conversation h
          { s with memory :=
              assocSet s.memory h (.dict [("dms", .list []),
                                          ("mentions", .list [])]) }
      else s
  | none => { s with memory := [], conv_files := [] }

/-- `has_replied_to_tweet`: membership in the replied-mentions set. -/
def has_replied_to_tweet (tweet_id : String) (s : MemState) : Bool :=
  decide (tweet_id ∈ s.replied_mentions)

/-- `save_replied_mentions`: dump `list(self.replied_mentions)` to
`data/replied_mentions.json`. -/
def save_replied_mentions (s : MemState) : MemState :=
  { s with replied_file := some s.replied_mentions }

/-- `add_tweet_reply`: add the ID to the set, then persist the full set. -/
def add_tweet_reply (tweet_id : String) (s : MemState) : MemState :=
  save_replied_mentions
    { s with replied_mentions := setAdd tweet_id s.replied_mentions }

/-- `load_replied_mentions`: `set(json.load(f))` under a bare `except`
returning the empty set — a missing or unreadable file (`none`) falls back
to the empty set, while a readable JSON array is deduplicated into a set. -/
def load_replied_mentions (file : Option (List String)) : List String :=
  match file with
  | none => []
  | some l => l.foldl (fun acc x => setAdd x acc) []

/-- Body of `load_all_conversations`: fold over the directory's files in
glob order; the single `try` wraps the whole loop, so the first unreadable
file stops loading with the entries read so far, and the exception is
reported to the wrapper. -/
def load_conversations_body :
    List (String × Except Unit PyVal) → List (String × PyVal) →
    List (String × PyVal) × Option Unit
  | [], mem => (mem, none)
  | (h, .ok v) :: rest, mem => load_conversations_body rest (assocSet mem h v)
  | (_, .error e) :: _, mem => (mem, some e)

/-- `load_all_conversations`: the wrapper logs and swallows the exception,
always returning normally with whatever was loaded. -/
def load_all_conversations (files : List (String × Except Unit PyVal))
    (mem : List (String × PyVal)) : List (String × PyVal) :=
  (load_conversations_body files mem).1

/-- `ConversationMemory.__init__` on a given disk state: load the replied
set, then the conversation files.  (Tweet-history loading is elided; the
empty list is its missing-file fallback.)  The disk is unchanged, keeping
the readable conversation files. -/
def newConversationMemory (repliedFile : Option (List String))
    (convFiles : List (String × Except Unit PyVal)) : MemState :=
  { memory := load_all_conversations convFiles []
    tweets := []
    replied_mentions := load_replied_mentions repliedFile
    conv_files := convFiles.filterMap
      (fun q => match q.2 with | .ok v => some (q.1, v) | .error _ => none)
    replied_file := repliedFile }

/-- Sort key of `get_recent_context`: `msg.get("timestamp")`, with `None`
mapped to `""` and other values passed through `str`.  A non-dict element
has no `.get` attribute. -/
def get_timestamp (msg : PyVal) : Except PyErr String :=
  match msg with
  | .dict kvs =>
      match kvs.lookup "timestamp" with
      | none => .ok ""
      | some .none_ => .ok ""
      | some ts => .ok (pyStr ts)
  | _ => .error (.attributeError "get")

/-- Stable insertion keeping existing entries with a key ≤ the new key in
front — the stability contract of `list.sort`. -/
def sortedInsert (p : String × PyVal) :
    List (String × PyVal) → List (String × PyVal)
  | [] => [p]
  | q :: qs => if q.1 ≤ p.1 then q :: sortedInsert p qs else p :: q :: qs

/-- `messages.sort(key=get_timestamp)`: compute every key (raising if an
element is not a dict, before any reordering, as CPython does), then sort
stably by key. -/
def sortByTimestamp (msgs : List PyVal) : Except PyErr (List PyVal) :=
  match msgs.mapM (fun m => (get_timestamp m).map (fun k => (k, m))) with
  | .error e => .error e
  | .ok keyed =>
      .ok ((keyed.foldl (fun acc q => sortedInsert q acc) []).map Prod.snd)

/-- `get_recent_context`: the `"tweets"` branch runs outside any handler so
its exceptions propagate; the conversation branch is wrapped in
`try ... except` returning `[]`.  The returned state carries the in-place
sort's effect (only reachable for a list-valued record). -/
def get_recent_context (handle : String) (limit : Int) (s : MemState) :
    Except PyErr (List PyVal) × MemState :=
  if handle = "tweets" then
    (((pySliceFrom (-limit) s.tweets).mapM
        (fun t => match t with
          | .dict kvs =>
              match kvs.lookup "text" with
              | some v => .ok v
              | none => .error (.keyError "text")
          | _ => .error PyErr.typeError)), s)
  else
    match s.memory.lookup handle with
    | none => (.ok [], s)
    | some v =>
        if pyFalsy v then (.ok [], s)
        else
          match v with
          | .list msgs =>
              match sortByTimestamp msgs with
              | .ok sorted =>
                  (.ok (pySliceFrom (-limit) sorted),
                   { s with memory :=
                       assocSet s.memory handle (.list sorted) })
              | .error _ => (.ok [], s)
          | _ => (.ok [], s)

/-! ## PostController: used-links throttle -/

/-- The pruning comprehension run on the `self.used_urls` dict both by
`_load_used_urls` and at the top of `post_creation`: keep an entry iff
`(current_time - timestamp).total_seconds() < 3600`.  Timestamps are
modelled in whole seconds. -/
def pruneUsedUrls (current_time : Int) (used : List (String × Int)) :
    List (String × Int) :=
  used.filter (fun p => current_time - p.2 < 3600)

/-- `_load_used_urls`: `fileData` is the decoded `posts` array of the
`data/used_urls.json` file as (url, timestamp) pairs; `none` stands for a
missing file or any decode failure, which the handler turns into the empty
dict.  The pairs are folded into a dict (later duplicates win) and entries
from more than an hour ago are dropped. -/
def loadUsedUrls (fileData : Option (List (String × Int)))
    (current_time : Int) : List (String × Int) :=
  match fileData with
  | none => []
  | some posts =>
      pruneUsedUrls current_time
        (posts.foldl (fun acc p => assocSet acc p.1 p.2) [])

/-- The throttle decision applied to a candidate link in `post_creation`:
after the pruning step, the link is skipped iff `image_url in
self.used_urls`, i.e. eligible iff absent from the pruned dict. -/
def linkEligible (current_time : Int) (used : List (String × Int))
    (link : String) : Bool :=
  ((pruneUsedUrls current_time used).lookup link).isNone

/-- On a successful post, `self.used_urls[image_url] = current_time` (with
`current_time` the reading captured at the start of `post_creation`). -/
def recordUsedLink (current_time : Int) (used : List (String × Int))
    (link : String) : List (String × Int) :=
  assocSet used link current_time

/-- The eligibility predicate as the spec words it, for comparison with
`linkEligible`: "the link is eligible iff it is absent from
UsedGenerationLinks or its recorded timestamp is more than one
throttle-window (3600s) in the past." -/
def specLinkEligible (current_time : Int) (used : List (String × Int))
    (link : String) : Bool :=
  match used.lookup link with
  | none => true
  | some t => decide (current_time - t > 3600)

/-! ## MainController: post scheduling -/

/-- The scheduling state of `MainController`: `last_post_time` and
`post_interval` (seconds). -/
structure SchedulerState where
  last_post_time : Int
  post_interval : Int
deriving Repr, DecidableEq

/-- The due-check of `schedule_posts`:
`time_since_last_post >= self.post_interval`. -/
def post_due (now : Int) (st : SchedulerState) : Bool :=
  decide (now - st.last_post_time ≥ st.post_interval)

/-- One iteration of the `schedule_posts` loop at wall-clock `now`: when
due, invoke `post_creation` once (its success or failure is the ignored
`_postSucceeded` argument — `post_creation` reports failures by returning,
not raising) and set `last_post_time := current_time`.  The boolean result
records whether the posting flow was invoked. -/
def schedule_posts_tick (now : Int) (st : SchedulerState)
    (_postSucceeded : Bool) : SchedulerState × Bool :=
  if post_due now st then ({ st with last_post_time := now }, true)
  else (st, false)

/-! ## MessageController: DM reply decision -/

/-- The per-conversation decision of `process_dms` (after reading the
ordered message sequence): `if not messages: continue`, then skip when
`messages[-1].get("is_from_us", False)` is truthy.  `.ok true` means the
pipeline towards a reply is entered; a non-dict last message raises inside
the per-conversation handler (caught there, conversation skipped). -/
def dm_reply_needed : List PyVal → Except PyErr Bool
  | [] => .ok false
  | m :: rest =>
      match (m :: rest).getLast (List.cons_ne_nil m rest) with
      | .dict kvs =>
          .ok (!pyTruthy ((kvs.lookup "is_from_us").getD (.bool false)))
      | _ => .error (.attributeError "get")

/-! ## MentionController: processing one mention -/

/-- Python `d.get(k) == v` for a string literal `v`. -/
def pyGetIsStr (kvs : List (String × PyVal)) (k v : String) : Bool :=
  match kvs.lookup k with
  | some (.str t) => t == v
  | _ => false

/-- The mention record stored by `process_mentions` after a sent reply. -/
def mentionData (tweet_id text reply : String) (ts : Int) : PyVal :=
  .dict [("tweet_id", .str tweet_id), ("text", .str text),
         ("reply", .str reply), ("timestamp", .int ts),
         ("is_from_us", .bool false)]

/-- Outcomes of the external collaborators consulted while processing one
mention, plus the clock readings taken.  `generation_result` is the dict
returned by `create_api.generate` (`none` = the call returned `None`, so
the following `.get` raises and is caught).  `prev_generation_result` is
the function-scoped `generation_result` binding possibly leaked from an
earlier loop iteration, which the `elif` on the unsafe-prompt path reads:
`none` = never bound (NameError, caught). -/
structure MentionEnv where
  tweet_text : Option String
  is_generation_request : Bool
  is_safe_prompt : Bool
  generation_result : Option (List (String × PyVal))
  prev_generation_result : Option (Option (List (String × PyVal)))
  confirmation : Option String
  reply_success : Bool
  engagement_response : Option String
  engagement_reply_success : Bool
  now : String
  mention_timestamp : Int

/-- Result of processing one mention: the new state, whether
`reply_to_tweet` was invoked, and whether it reported success. -/
structure MentionOutcome where
  state : MemState
  attempted : Bool
  sent : Bool

/-- The classification / generation / reply pipeline of the per-mention
`try` block of `process_mentions` (lines 70-159), entered once the guards
passed: the tweet ID is added to the replied set via `add_tweet_reply` only
after `reply_to_tweet` reports success, followed by `add_mention`.  All
exceptions of the pipeline are caught by the per-mention handlers, which
skip the mention. -/
def mention_reply_pipeline (env : MentionEnv) (tid h txt : String)
    (s : MemState) : MentionOutcome :=
  if env.is_generation_request then
          if env.is_safe_prompt then
            match env.generation_result with
            | none => ⟨s, false, false⟩
            | some gr =>
              if pyTruthy ((gr.lookup "success").getD .none_) then
                match env.confirmation with
                | some conf =>
                  if conf.isEmpty then ⟨s, false, false⟩
                  else
                    let full_reply := conf ++ "\n\n" ++
                      pyStr ((gr.lookup "share_url").getD .none_)
                    if env.reply_success then
                      let s := add_tweet_reply tid s
                      let s := add_mention env.now h
                        (mentionData tid txt full_reply env.mention_timestamp) s
                      ⟨s, true, true⟩
                    else ⟨s, true, false⟩
                | none => ⟨s, false, false⟩
              else ⟨s, false, false⟩
          else
            match env.prev_generation_result with
            | none => ⟨s, false, false⟩
            | some none => ⟨s, false, false⟩
            | some (some gr) =>
              if pyGetIsStr gr "error" "X account not found or not linked" then
                match env.engagement_response with
                | some er =>
                  if er.isEmpty then ⟨s, false, false⟩
                  else if env.engagement_reply_success then
                    let s := add_tweet_reply tid s
                    let s := add_mention env.now h
                      (mentionData tid txt er env.mention_timestamp) s
                    ⟨s, true, true⟩
                  else ⟨s, true, false⟩
                | none => ⟨s, false, false⟩
              else ⟨s, false, false⟩
  else ⟨s, false, false⟩

/-- The body of the per-mention loop of `process_mentions` (lines 44-163):
guard on tweet ID and handle, skip when `has_replied_to_tweet` holds, guard
on tweet text, then run the reply pipeline. -/
def process_one_mention (env : MentionEnv)
    (tweet_id handle : Option String) (s : MemState) : MentionOutcome :=
  match tweet_id, handle with
  | some tid, some h =>
    if tid.isEmpty || h.isEmpty then ⟨s, false, false⟩
    else if has_replied_to_tweet tid s then ⟨s, false, false⟩
    else
      match env.tweet_text with
      | none => ⟨s, false, false⟩
      | some txt =>
        if txt.isEmpty then ⟨s, false, false⟩
        else mention_reply_pipeline env tid h txt s
  | _, _ => ⟨s, false, false⟩

/-! ## Helper lemmas -/

theorem lookup_assocSet_self {α : Type} (l : List (String × α)) (k : String)
    (v : α) : (assocSet l k v).lookup k = some v := by
  induction l with
  | nil => simp [assocSet, List.lookup]
  | cons p rest ih =>
      obtain ⟨k', v'⟩ := p
      by_cases h : k' = k
      · simp [assocSet, h, List.lookup]
      · have hb : (k == k') = false := beq_eq_false_iff_ne.mpr (Ne.symm h)
        simp [assocSet, h, List.lookup, hb, ih]

theorem lookup_eq_none_of_not_mem {α : Type} (l : List (String × α))
    (k : String) (h : k ∉ l.map Prod.fst) : l.lookup k = none := by
  induction l with
  | nil => rfl
  | cons p rest ih =>
      obtain ⟨k', v'⟩ := p
      simp only [List.map_cons, List.mem_cons] at h
      push_neg at h
      have hb : (k == k') = false := beq_eq_false_iff_ne.mpr h.1
      simp [List.lookup, hb, ih h.2]

theorem mem_setAdd (x y : String) (l : List String) :
    y ∈ setAdd x l ↔ y = x ∨ y ∈ l := by
  unfold setAdd
  by_cases h : x ∈ l
  · simp only [if_pos h]
    constructor
    · exact fun hy => Or.inr hy
    · rintro (rfl | hy) <;> [exact h; exact hy]
  · simp [if_neg h, or_comm]

theorem mem_foldl_setAdd (x : String) (l acc : List String) :
    x ∈ l.foldl (fun a y => setAdd y a) acc ↔ x ∈ acc ∨ x ∈ l := by
  induction l generalizing acc with
  | nil => simp
  | cons y ys ih =>
      simp only [List.foldl_cons, ih, mem_setAdd, List.mem_cons]
      tauto

theorem lookup_pruneUsedUrls (now : Int) (used : List (String × Int))
    (link : String) (hnd : (used.map Prod.fst).Nodup) :
    (pruneUsedUrls now used).lookup link =
      match used.lookup link with
      | none => none
      | some t => if now - t < 3600 then some t else none := by
  induction used with
  | nil => rfl
  | cons p rest ih =>
      obtain ⟨k, t⟩ := p
      simp only [List.map_cons, List.nodup_cons] at hnd
      by_cases hk : link = k
      · subst hk
        by_cases ht : now - t < 3600
        · simp [pruneUsedUrls, List.filter_cons, ht, List.lookup]
        · have hrest : (pruneUsedUrls now rest).lookup link = none := by
            apply lookup_eq_none_of_not_mem
            intro hmem
            apply hnd.1
            obtain ⟨q, hq, rfl⟩ := List.mem_map.mp hmem
            exact List.mem_map.mpr ⟨q, (List.mem_filter.mp hq).1, rfl⟩
          simp [pruneUsedUrls, List.filter_cons, ht, List.lookup, hrest]
          intro a b hab _hkept heq
          subst heq
          exact hnd.1 (List.mem_map.mpr ⟨(link, b), hab, rfl⟩)
      · have hb : (link == k) = false := beq_eq_false_iff_ne.mpr hk
        have ihr := ih hnd.2
        by_cases ht : now - t < 3600
        · simp [pruneUsedUrls, List.filter_cons, ht, List.lookup, hb] at ihr ⊢
          exact ihr
        · simp [pruneUsedUrls, List.filter_cons, ht, List.lookup, hb] at ihr ⊢
          exact ihr

/-! ## Claim theorems -/

/-- Claim C7: with `last_post_time = now - 3700` and `post_interval = 3600`
the due-check `elapsed >= interval` is true; when due, one scheduler tick
invokes the posting flow exactly once and resets `last_post_time` to the
current time regardless of the flow's success, so the due-check immediately
after firing is false and stays false until a full interval has elapsed. -/
theorem C7_scheduler_tick (now : Int) (succeeded : Bool) :
    post_due now ⟨now - 3700, 3600⟩ = true
    ∧ schedule_posts_tick now ⟨now - 3700, 3600⟩ succeeded = (⟨now, 3600⟩, true)
    ∧ post_due now ⟨now, 3600⟩ = false
    ∧ ∀ t : Int, t - now < 3600 → post_due t ⟨now, 3600⟩ = false := by
  have h1 : post_due now ⟨now - 3700, 3600⟩ = true := by
    simp only [post_due, decide_eq_true_eq]; omega
  refine ⟨h1, ?_, ?_, ?_⟩
  · simp [schedule_posts_tick, h1]
  · simp only [post_due, decide_eq_false_iff_not]; omega
  · intro t ht
    simp only [post_due, decide_eq_false_iff_not]; omega

/-- Witness for C7 at `now = 10000`, checking the post-firing due-check at
`t = 13599`, one second before the next interval boundary. -/
theorem C7_scheduler_tick_witness :
    (13599 : Int) - 10000 < 3600 ∧ post_due 13599 ⟨10000, 3600⟩ = false :=
  ⟨by decide, (C7_scheduler_tick 10000 false).2.2.2 13599 (by decide)⟩

/-- Claim C5: `process_dms` decides a reply is needed iff the message
sequence is non-empty and the last message's `is_from_us` (defaulting to
false when absent) is false; an empty sequence or a last message from us
makes the conversation be skipped. -/
theorem C5_dm_reply_decision :
    dm_reply_needed [] = .ok false
    ∧ ∀ (msgs : List PyVal) (kvs : List (String × PyVal)),
        msgs.getLast? = some (.dict kvs) →
        (dm_reply_needed msgs = .ok true ↔
          pyTruthy ((kvs.lookup "is_from_us").getD (.bool false)) = false) := by
  refine ⟨rfl, ?_⟩
  intro msgs kvs hlast
  match msgs with
  | [] => simp at hlast
  | m :: rest =>
      have hg : (m :: rest).getLast (List.cons_ne_nil m rest) = .dict kvs := by
        have := List.getLast?_eq_getLast (m :: rest) (List.cons_ne_nil m rest)
        rw [this] at hlast
        exact Option.some_injective _ hlast.symm |>.symm
      simp only [dm_reply_needed, hg]
      constructor
      · intro h
        have := Except.ok.inj h
        cases hb : pyTruthy ((kvs.lookup "is_from_us").getD (.bool false)) with
        | false => rfl
        | true => rw [hb] at this; simp at this
      · intro h
        rw [h]
        rfl

/-- Witness for C5: a one-message sequence from the counterparty needs a
reply. -/
theorem C5_dm_reply_decision_witness :
    dm_reply_needed [.dict [("text", .str "hi"), ("is_from_us", .bool false)]]
      = .ok true :=
  (C5_dm_reply_decision.2
      [.dict [("text", .str "hi"), ("is_from_us", .bool false)]]
      [("text", .str "hi"), ("is_from_us", .bool false)] rfl).mpr rfl

/-- Claim C4: every entry surviving `_load_used_urls` or the pruning step of
`post_creation` has age at most 3600 seconds, and an entry older than the
window is removed by pruning. -/
theorem C4_pruning_invariant (now : Int)
    (fileData : Option (List (String × Int)))
    (used : List (String × Int)) (p : String × Int) :
    (p ∈ loadUsedUrls fileData now → now - p.2 ≤ 3600)
    ∧ (p ∈ pruneUsedUrls now used → now - p.2 ≤ 3600)
    ∧ (p ∈ used → now - p.2 > 3600 → p ∉ pruneUsedUrls now used) := by
  refine ⟨?_, ?_, ?_⟩
  · intro hp
    cases fileData with
    | none => simp [loadUsedUrls] at hp
    | some posts =>
        have := (List.mem_filter.mp hp).2
        simp only [decide_eq_true_eq] at this
        omega
  · intro hp
    have := (List.mem_filter.mp hp).2
    simp only [decide_eq_true_eq] at this
    omega
  · intro _hp hage hmem
    have := (List.mem_filter.mp hmem).2
    simp only [decide_eq_true_eq] at this
    omega

/-- Witness for C4: the entry ("L", 100) loaded at time 200 has age 100 ≤
3600, and an entry of age 4000 is pruned. -/
theorem C4_pruning_invariant_witness :
    (200 : Int) - 100 ≤ 3600 ∧ ("L", (0 : Int)) ∉ pruneUsedUrls 4000 [("L", 0)] :=
  ⟨(C4_pruning_invariant 200 (some [("L", 100)]) [] ("L", 100)).1 (by decide),
   (C4_pruning_invariant 4000 none [("L", 0)] ("L", 0)).2.2 (by decide) (by decide)⟩

/-- Counterexample to claim C3 as stated: a link recorded at time 0 and
checked at time 3600 (exactly one window later) is eligible for the code —
the pruning keeps only entries of age strictly less than 3600 — while the
claimed characterisation ("more than 3600 seconds in the past") calls it
ineligible. -/
theorem C3_boundary_counterexample :
    linkEligible 3600 [("L", 0)] "L" = true
    ∧ specLinkEligible 3600 [("L", 0)] "L" = false := by
  constructor <;> rfl

/-- Claim C3 as amended: a candidate link is eligible iff it is absent from
the used-links mapping or its recorded timestamp is at least (rather than
strictly more than) 3600 seconds in the past; a link recorded at T is
ineligible at T+1800s and eligible again at T+3600s and at T+3601s, and a
successful post records the current time for the link. -/
theorem C3_throttle_eligibility (now T : Int) (link : String)
    (used : List (String × Int)) (hnd : (used.map Prod.fst).Nodup) :
    (linkEligible now used link = true ↔
      ∀ t, used.lookup link = some t → now - t ≥ 3600)
    ∧ linkEligible (T + 1800) [(link, T)] link = false
    ∧ linkEligible (T + 3600) [(link, T)] link = true
    ∧ linkEligible (T + 3601) [(link, T)] link = true
    ∧ recordUsedLink now used link = assocSet used link now := by
  have hself : (link == link) = true := beq_self_eq_true link
  refine ⟨?_, ?_, ?_, ?_, rfl⟩
  · rw [linkEligible, lookup_pruneUsedUrls now used link hnd]
    cases h : used.lookup link with
    | none => simp
    | some t => by_cases ht : now - t < 3600 <;> simp [ht] <;> omega
  · have : (T + 1800) - T < 3600 := by omega
    simp [linkEligible, pruneUsedUrls, List.filter_cons, this, List.lookup, hself]
  · have : ¬((T + 3600) - T < 3600) := by omega
    simp [linkEligible, pruneUsedUrls, List.filter_cons, this, List.lookup]
  · have : ¬((T + 3601) - T < 3600) := by omega
    simp [linkEligible, pruneUsedUrls, List.filter_cons, this, List.lookup]

/-- Witness for C3 (amended) on concrete data: a link of age 1700 is still
throttled, the iff gives eligibility for an absent link, and a link of age
exactly one window is eligible again. -/
theorem C3_throttle_eligibility_witness :
    linkEligible 1700 [("L", (0 : Int))] "L" = false
    ∧ linkEligible 9999 [] "M" = true
    ∧ linkEligible 3600 [("L", (0 : Int))] "L" = true :=
  ⟨by
      have h := (C3_throttle_eligibility 0 0 "L" [] (by simp)).2.1
      simpa using h,
   (C3_throttle_eligibility 9999 0 "M" [] (by simp)).1.mpr
      (by intro t ht; simp [List.lookup] at ht),
   by
      have h := (C3_throttle_eligibility 0 0 "L" [] (by simp)).2.2.1
      simpa using h⟩

/-- Claim C1 (code bug): on any record created by `get_conversation`, the
statement `conversation["total_interactions"] += 1` of `add_mention` raises
`KeyError` — the counter lives under `metadata`, not at top level — which
the blanket handler swallows; the mention is appended and
`last_interaction` stamped in memory, but `metadata.total_interactions`
stays 0 and `save_conversation` is never reached, so nothing is persisted
by the call. -/
theorem C1_add_mention_keyerror :
    (add_mention_body "T1" "alice" (.dict [("tweet_id", .str "99")])
        ⟨[], [], [], [], none⟩).2 = some (.keyError "total_interactions")
    ∧ (add_mention "T1" "alice" (.dict [("tweet_id", .str "99")])
        ⟨[], [], [], [], none⟩).memory.lookup "alice" =
        some (.dict [("dms", .list []),
                     ("mentions", .list [.dict [("tweet_id", .str "99")]]),
                     ("last_interaction", .str "T1"),
                     ("metadata", .dict [("first_seen", .str "T1"),
                                         ("total_interactions", .int 0)])])
    ∧ (add_mention "T1" "alice" (.dict [("tweet_id", .str "99")])
        ⟨[], [], [], [], none⟩).conv_files = [] := by
  refine ⟨rfl, rfl, rfl⟩

theorem save_conversation_replied_mentions (handle : String) (s : MemState) :
    (save_conversation handle s).replied_mentions = s.replied_mentions := by
  unfold save_conversation
  split <;> simp

theorem save_conversation_replied_file (handle : String) (s : MemState) :
    (save_conversation handle s).replied_file = s.replied_file := by
  unfold save_conversation
  split <;> simp

theorem add_mention_preserves_replied (now handle : String) (m : PyVal)
    (s : MemState) :
    (add_mention now handle m s).replied_mentions = s.replied_mentions
    ∧ (add_mention now handle m s).replied_file = s.replied_file := by
  unfold add_mention add_mention_body get_conversation
  dsimp only
  constructor <;>
  · split <;> (try split_ifs) <;> (try dsimp only) <;> repeat' split
    all_goals
      simp_all [save_conversation_replied_mentions, save_conversation_replied_file]

theorem mention_pipeline_spec (env : MentionEnv) (tid h txt : String)
    (s : MemState) :
    ((mention_reply_pipeline env tid h txt s).state.replied_mentions
      = if (mention_reply_pipeline env tid h txt s).sent
        then setAdd tid s.replied_mentions else s.replied_mentions)
    ∧ ((mention_reply_pipeline env tid h txt s).attempted = true →
       (mention_reply_pipeline env tid h txt s).sent = false →
       mention_reply_pipeline env tid h txt s = ⟨s, true, false⟩) := by
  unfold mention_reply_pipeline
  dsimp only
  refine ⟨?_, ?_⟩ <;>
  · repeat' split
    all_goals
      simp_all [add_tweet_reply, save_replied_mentions,
        add_mention_preserves_replied]

/-- Claim C2: for each mention, `has_replied_to_tweet` is consulted before
any reply is attempted and a tweet ID already in the replied set is skipped
untouched; `add_tweet_reply` runs only after `reply_to_tweet` reports
success, so a failed send leaves the whole state (in particular the
replied set) unchanged and the mention is retried on a later cycle. -/
theorem C2_mention_dedup (env : MentionEnv) (tid handle : String)
    (s : MemState) :
    (has_replied_to_tweet tid s = true →
      process_one_mention env (some tid) (some handle) s = ⟨s, false, false⟩)
    ∧ ((process_one_mention env (some tid) (some handle) s).attempted = true →
        has_replied_to_tweet tid s = false)
    ∧ ((process_one_mention env (some tid) (some handle) s).state.replied_mentions
        = if (process_one_mention env (some tid) (some handle) s).sent
          then setAdd tid s.replied_mentions else s.replied_mentions)
    ∧ ((process_one_mention env (some tid) (some handle) s).attempted = true →
        (process_one_mention env (some tid) (some handle) s).sent = false →
        process_one_mention env (some tid) (some handle) s = ⟨s, true, false⟩) := by
  unfold process_one_mention
  dsimp only
  by_cases hge : (tid.isEmpty || handle.isEmpty) = true
  · simp [hge]
  · by_cases hrep : has_replied_to_tweet tid s = true
    · simp [hge, hrep]
    · have hrep' : has_replied_to_tweet tid s = false :=
        Bool.eq_false_iff.mpr hrep
      cases henv : env.tweet_text with
      | none => simp [hge, hrep', henv]
      | some txt =>
          by_cases htxt : txt.isEmpty = true
          · simp [hge, hrep', henv, htxt]
          · have hp := mention_pipeline_spec env tid handle txt s
            simp only [hge, hrep', henv, htxt, Bool.false_eq_true,
              if_false, if_neg]
            refine ⟨fun hc => hc.elim, fun _ => trivial, hp.1, hp.2⟩

/-- Witness for C2: a mention whose tweet ID is already in the replied set
is skipped with no reply attempt and no state change. -/
theorem C2_mention_dedup_witness :
    process_one_mention
        ⟨some "hello", true, true, some [("success", PyVal.bool true)], none,
         some "ok", true, none, false, "T", 5⟩
        (some "42") (some "bob") ⟨[], [], ["42"], [], none⟩
      = ⟨⟨[], [], ["42"], [], none⟩, false, false⟩ :=
  (C2_mention_dedup
      ⟨some "hello", true, true, some [("success", PyVal.bool true)], none,
       some "ok", true, none, false, "T", 5⟩
      "42" "bob" ⟨[], [], ["42"], [], none⟩).1 (by rfl)

/-- Claim C6: after `add_tweet_reply tid` persists the set, a fresh
`ConversationMemory` built from the persisted file reports
`has_replied_to_tweet tid = true`, and every entry of the set saved before
the restart is recovered on reload. -/
theorem C6_replied_roundtrip (tid : String) (s : MemState)
    (convFiles : List (String × Except Unit PyVal)) :
    has_replied_to_tweet tid
        (newConversationMemory (add_tweet_reply tid s).replied_file convFiles)
      = true
    ∧ ∀ x ∈ (add_tweet_reply tid s).replied_mentions,
        has_replied_to_tweet x
            (newConversationMemory (add_tweet_reply tid s).replied_file
              convFiles)
          = true := by
  have hfile : (add_tweet_reply tid s).replied_file
      = some (setAdd tid s.replied_mentions) := rfl
  have hload : ∀ x : String,
      x ∈ (newConversationMemory (add_tweet_reply tid s).replied_file
            convFiles).replied_mentions
        ↔ x ∈ setAdd tid s.replied_mentions := by
    intro x
    rw [hfile]
    show x ∈ load_replied_mentions (some (setAdd tid s.replied_mentions)) ↔ _
    unfold load_replied_mentions
    rw [mem_foldl_setAdd]
    simp
  constructor
  · simp only [has_replied_to_tweet, decide_eq_true_eq, hload,
      mem_setAdd]
    exact Or.inl trivial
  · intro x hx
    simp only [has_replied_to_tweet, decide_eq_true_eq, hload]
    exact hx

/-- Witness for C6: the spec's replay-protection scenario with ID "12345"
from an empty initial state and an empty conversation directory. -/
theorem C6_replied_roundtrip_witness :
    has_replied_to_tweet "12345"
        (newConversationMemory
          (add_tweet_reply "12345" ⟨[], [], [], [], none⟩).replied_file [])
      = true
    ∧ has_replied_to_tweet "12345"
        (newConversationMemory
          (add_tweet_reply "12345" ⟨[], [], [], [], none⟩).replied_file [])
      = true :=
  ⟨(C6_replied_roundtrip "12345" ⟨[], [], [], [], none⟩ []).1,
   (C6_replied_roundtrip "12345" ⟨[], [], [], [], none⟩ []).2 "12345"
      (by decide)⟩

/-- Claim C8: a load failure of any individual persisted file is non-fatal:
the replied-mentions loader and the used-links loader fall back to the
empty structure, `load_all_conversations` returns normally with the files
read before the failing one (the failing handle gets no entry), and a
handle without an entry is recreated as the default empty record on first
access. -/
theorem C8_load_failures_nonfatal :
    load_replied_mentions none = []
    ∧ (∀ ct : Int, loadUsedUrls none ct = [])
    ∧ (∀ (pre : List (String × PyVal))
         (fs1 : List (String × Except Unit PyVal)) (h : String)
         (fs2 : List (String × Except Unit PyVal)),
         (∀ q ∈ fs1, q.2 ≠ .error ()) →
         load_all_conversations (fs1 ++ (h, .error ()) :: fs2) pre =
           load_all_conversations fs1 pre)
    ∧ (∀ (now handle : String) (s : MemState),
         s.memory.lookup handle = none →
         (get_conversation now handle s).2 = defaultRecord now) := by
  refine ⟨rfl, fun _ => rfl, ?_, ?_⟩
  · intro pre fs1 h fs2
    induction fs1 generalizing pre with
    | nil => intro _; rfl
    | cons q rest ih =>
        intro hok
        obtain ⟨k, e⟩ := q
        cases e with
        | ok v =>
            exact ih (assocSet pre k v)
              (fun q hq => hok q (List.mem_cons_of_mem _ hq))
        | error u =>
            cases u
            exact absurd rfl (hok (k, .error ()) (List.mem_cons_self _ _))
  · intro now handle s hl
    unfold get_conversation
    rw [hl]

/-- Witness for C8: a directory with one good file before the corrupt one
keeps the good file and drops the rest, and an absent handle is recreated
as the default record. -/
theorem C8_load_failures_nonfatal_witness :
    load_all_conversations
        [("a", .ok (.dict [])), ("bad", .error ()), ("c", .ok .none_)] []
      = load_all_conversations [("a", .ok (.dict []))] []
    ∧ (get_conversation "T" "ghost" ⟨[], [], [], [], none⟩).2
      = defaultRecord "T" :=
  ⟨C8_load_failures_nonfatal.2.2.1 [] [("a", .ok (.dict []))] "bad"
      [("c", .ok .none_)] (by simp),
   C8_load_failures_nonfatal.2.2.2 "T" "ghost" ⟨[], [], [], [], none⟩ rfl⟩

/-- Claim C9: for every handle other than the literal `"tweets"` and every
limit, `get_recent_context` returns the empty list whenever the handle is
absent or its stored record is a mapping: an absent handle takes the empty
default, and a dict has no `sort`, so the `AttributeError` is caught and
`[]` returned — no stored conversation messages are ever produced. -/
theorem C9_recent_context_empty (handle : String) (limit : Int) (s : MemState)
    (hn : handle ≠ "tweets")
    (hd : ∀ v, s.memory.lookup handle = some v → ∃ kvs, v = PyVal.dict kvs) :
    get_recent_context handle limit s = (.ok [], s) := by
  unfold get_recent_context
  rw [if_neg hn]
  cases hl : s.memory.lookup handle with
  | none => rfl
  | some v =>
      obtain ⟨kvs, rfl⟩ := hd v hl
      by_cases hf : pyFalsy (.dict kvs) = true
      · simp [hf]
      · simp [hf]

/-- Witness for C9: a handle holding an ordinary (mapping-shaped) record
yields the empty context. -/
theorem C9_recent_context_empty_witness :
    get_recent_context "alice" 5
        ⟨[("alice", .dict [("dms", .list [.dict [("text", .str "m")]]),
                           ("mentions", .list [])])], [], [], [], none⟩
      = (.ok [],
         ⟨[("alice", .dict [("dms", .list [.dict [("text", .str "m")]]),
                            ("mentions", .list [])])], [], [], [], none⟩) :=
  C9_recent_context_empty "alice" 5 _ (by decide)
    (by
      intro v hv
      have hv2 : some (PyVal.dict [("dms", .list [.dict [("text", .str "m")]]),
          ("mentions", .list [])]) = some v := hv ▸ rfl
      exact ⟨_, (Option.some.inj hv2).symm⟩)

theorem save_conversation_memory (handle : String) (s : MemState) :
    (save_conversation handle s).memory = s.memory := by
  unfold save_conversation
  split <;> simp

/-- Claim C10: after `clear_memory(handle)` the handle's record holds only
the `dms` and `mentions` keys; a following `add_dm` appends the message and
stamps `last_interaction` in memory, then raises an uncaught `KeyError`
looking up `metadata` for the counter increment, so `save_conversation` is
never reached and the files are untouched by that call. -/
theorem C10_clear_then_add_dm (s : MemState) (handle now : String)
    (msg : List (String × PyVal))
    (hpres : (s.memory.lookup handle).isSome) :
    (clear_memory (some handle) s).memory.lookup handle
      = some (.dict [("dms", .list []), ("mentions", .list [])])
    ∧ (add_dm now handle msg (clear_memory (some handle) s)).2
      = some (.keyError "metadata")
    ∧ (add_dm now handle msg (clear_memory (some handle) s)).1.memory.lookup
        handle
      = some (.dict [("dms", .list [.dict (assocSet msg "type" (.str "dm"))]),
                     ("mentions", .list []),
                     ("last_interaction", .str now)])
    ∧ (add_dm now handle msg (clear_memory (some handle) s)).1.conv_files
      = (clear_memory (some handle) s).conv_files := by
  have hmem1 : (clear_memory (some handle) s).memory
      = assocSet s.memory handle
          (.dict [("dms", .list []), ("mentions", .list [])]) := by
    unfold clear_memory
    dsimp only
    rw [if_pos hpres, save_conversation_memory]
  have h1 : (clear_memory (some handle) s).memory.lookup handle
      = some (.dict [("dms", .list []), ("mentions", .list [])]) := by
    rw [hmem1]
    exact lookup_assocSet_self _ _ _
  refine ⟨h1, ?_, ?_, ?_⟩ <;>
  · unfold add_dm get_conversation
    rw [h1]
    dsimp only
    simp [assocSet, List.lookup, lookup_assocSet_self]

/-- Witness for C10: clearing a present handle then adding a DM hits the
uncaught `KeyError` on `metadata` and leaves the file system untouched. -/
theorem C10_clear_then_add_dm_witness :
    (clear_memory (some "bob")
        ⟨[("bob", defaultRecord "T0")], [], [], [], none⟩).memory.lookup "bob"
      = some (.dict [("dms", .list []), ("mentions", .list [])])
    ∧ (add_dm "T1" "bob" [("text", .str "hi")]
        (clear_memory (some "bob")
          ⟨[("bob", defaultRecord "T0")], [], [], [], none⟩)).2
      = some (.keyError "metadata") :=
  ⟨(C10_clear_then_add_dm ⟨[("bob", defaultRecord "T0")], [], [], [], none⟩
      "bob" "T1" [("text", .str "hi")] (by rfl)).1,
   (C10_clear_then_add_dm ⟨[("bob", defaultRecord "T0")], [], [], [], none⟩
      "bob" "T1" [("text", .str "hi")] (by rfl)).2.1⟩

end CreateX
